import Mathlib

/-!
Shallow embedding of the quiz-attempt scoring and grading engine of the
kwizify-api repository (src/api/routes/quiz.py over the data model of
src/models/database.py), together with proofs of the specified properties.

Modelling conventions:
* Database tables are Lean lists held in a `DBState`, kept in insertion
  (primary-key) order; a SQLAlchemy `select(...).filter(...)` becomes
  `List.filter`, `.scalars().first()` becomes `.head?`, and an explicit
  `order_by(Model.id)` becomes `List.insertionSort` on the id.
* Python single-character strings (the answer letters) are modelled by
  their code points as `Nat`; `ord` and `chr` are then identities and
  `str.upper` on one ASCII character is `pyUpper`.
* Python floats (`score`, `time_spent_seconds`) are modelled by `ℚ`.
* Datetimes are modelled by a `now : Nat` parameter threaded to each route.
* A route body running inside `async with db.begin()` is a function
  `DBState → Except Err (DBState × result)`; an exception rolls the
  transaction back, so the state visible after a call is the new state on
  `.ok` and the unchanged input state on `.error` (`visibleSubmitState`).
* Autoincrement primary keys are modelled by `nextAttemptId` (one more
  than the largest existing id).  The `id`/`created_at`/`updated_at`
  columns of rows that no modelled route ever reads (answer ids,
  timestamps of catalog rows) are omitted from the row structures.
* A simulated store failure during the answer-insertion loop
  (`failAfter`) models a transaction error for the atomicity property.
-/

namespace Kwizify

/-- models/database.py `User` (columns read by the quiz routes). -/
structure User where
  id : Nat
  username : String
  email : String
  hashed_password : String
  is_active : Bool
deriving DecidableEq, Repr

/-- models/database.py `Quiz`. -/
structure Quiz where
  id : Nat
  title : String
  description : Option String
  creator_id : Nat
deriving DecidableEq, Repr

/-- models/database.py `Question`. -/
structure Question where
  id : Nat
  quiz_id : Nat
  question_text : String
deriving DecidableEq, Repr

/-- models/database.py `QuestionOption`. -/
structure QuestionOption where
  id : Nat
  question_id : Nat
  option_text : String
  is_correct : Bool
deriving DecidableEq, Repr

/-- models/database.py `QuizAttempt`. -/
structure QuizAttempt where
  id : Nat
  quiz_id : Nat
  user_id : Nat
  started_at : Nat
  completed_at : Option Nat
  time_spent_seconds : Option ℚ
  score : Option ℚ
deriving DecidableEq, Repr

/-- models/database.py `QuestionAnswer` (the autoincrement `id` and
`created_at` columns are never read by any modelled route and are omitted). -/
structure QuestionAnswer where
  attempt_id : Nat
  question_id : Nat
  selected_option_id : Option Nat
  is_correct : Bool
deriving DecidableEq, Repr

/-- The relational store: one list per table, in insertion (primary-key)
order. -/
structure DBState where
  users : List User
  quizzes : List Quiz
  questions : List Question
  options : List QuestionOption
  attempts : List QuizAttempt
  answers : List QuestionAnswer
deriving DecidableEq, Repr

/-- `select(Quiz).filter(Quiz.id == quiz_id)` + `.scalars().first()`. -/
def findQuiz (st : DBState) (quiz_id : Nat) : Option Quiz :=
  (st.quizzes.filter (fun q => q.id == quiz_id)).head?

/-- `select(User).filter(User.id == user_id)` + `.scalars().first()`. -/
def findUser (st : DBState) (user_id : Nat) : Option User :=
  (st.users.filter (fun u => u.id == user_id)).head?

/-- `select(QuizAttempt).filter(QuizAttempt.id == attempt_id)` + `.first()`. -/
def findAttempt (st : DBState) (attempt_id : Nat) : Option QuizAttempt :=
  (st.attempts.filter (fun a => a.id == attempt_id)).head?

/-- `select(Question).filter(Question.id == qid)` + `.scalars().first()`. -/
def findQuestion (st : DBState) (question_id : Nat) : Option Question :=
  (st.questions.filter (fun q => q.id == question_id)).head?

/-- `select(Question).filter(Question.quiz_id == quiz_id).order_by(Question.id)`:
the quiz's questions in ascending-id order. -/
def questionsOfQuiz (st : DBState) (quiz_id : Nat) : List Question :=
  List.insertionSort (fun a b => a.id ≤ b.id)
    (st.questions.filter (fun q => q.quiz_id == quiz_id))

/-- `select(QuestionOption).filter(QuestionOption.question_id == qid).order_by(QuestionOption.id)`:
a question's options in ascending-id order (A = 0th, B = 1st, ...). -/
def optionsOfQuestion (st : DBState) (question_id : Nat) : List QuestionOption :=
  List.insertionSort (fun a b => a.id ≤ b.id)
    (st.options.filter (fun o => o.question_id == question_id))

/-- `select(QuestionAnswer).filter(QuestionAnswer.attempt_id == attempt_id)`:
note the source uses no `order_by` here, so the rows stay in store order. -/
def answersOfAttempt (st : DBState) (attempt_id : Nat) : List QuestionAnswer :=
  st.answers.filter (fun a => a.attempt_id == attempt_id)

/-- Autoincrement primary key for a new `QuizAttempt` row: one more than
the largest id in the table. -/
def nextAttemptId (st : DBState) : Nat :=
  st.attempts.foldr (fun a m => max a.id m) 0 + 1

/-- Python `str.upper()` on a single character, by code point (ASCII
letters a-z map down by 32, everything else is unchanged). -/
def pyUpper (c : Nat) : Nat :=
  if 97 ≤ c ∧ c ≤ 122 then c - 32 else c

/-- `option_index = ord(selected_letter) - ord('A')` after uppercasing;
computed in ℤ because Python subtraction can go negative. -/
def optionIndex (c : Nat) : Int :=
  (pyUpper c : Int) - 65

/-- Exceptions that can escape the body of `submit_quiz_attempt`. -/
inductive SubmitError where
  /-- `HTTPException(404, "Quiz not found")`. -/
  | quizNotFound
  /-- `HTTPException(400, "Number of selected options ... does not match ...")`. -/
  | countMismatch
  /-- Python `ZeroDivisionError` from `correct_count / len(questions)`. -/
  | zeroDivision
  /-- a simulated store failure while inserting an Answer row. -/
  | storeFault
deriving DecidableEq, Repr

/-- The response dict of `submit_quiz_attempt`. -/
structure SubmitResult where
  attempt_id : Nat
  score : ℚ
  correct_answers : Nat
  total_questions : Nat
  time_spent_seconds : ℚ
deriving DecidableEq, Repr

/-- One iteration of the grading loop of `submit_quiz_attempt` (lines
89-116): uppercase the letter, compute the option index, and build the
`QuestionAnswer` row — the in-range branch records the selected option id
and its `is_correct`, the out-of-range branch records `null`/`false`. -/
def gradeOne (st : DBState) (attemptId : Nat) (q : Question) (c : Nat) :
    QuestionAnswer :=
  let options := optionsOfQuestion st q.id
  let idx := optionIndex c
  if h : 0 ≤ idx ∧ idx < (options.length : Int) then
    let so := options.get ⟨idx.toNat, by omega⟩
    { attempt_id := attemptId, question_id := q.id,
      selected_option_id := some so.id, is_correct := so.is_correct }
  else
    { attempt_id := attemptId, question_id := q.id,
      selected_option_id := none, is_correct := false }

/-- The grading loop over the (question, letter) pairs, threading the
running `correct_count` and the inserted `QuestionAnswer` rows.
`failAfter = some k` simulates a store error raised while inserting the
k-th (0-based) Answer row, for the atomicity property. -/
def gradeLoopF (st : DBState) (attemptId : Nat) (failAfter : Option Nat) :
    Nat → List (Question × Nat) → Except SubmitError (Nat × List QuestionAnswer)
  | _, [] => .ok (0, [])
  | i, (q, c) :: rest =>
    if failAfter = some i then .error .storeFault
    else
      let a := gradeOne st attemptId q c
      match gradeLoopF st attemptId failAfter (i + 1) rest with
      | .error e => .error e
      | .ok (cnt, rows) => .ok ((if a.is_correct then 1 else 0) + cnt, a :: rows)

/-- src/api/routes/quiz.py `submit_quiz_attempt` (lines 48-130), with an
optional simulated store failure injected into the answer-insertion loop.
Steps: validate the quiz, fetch the questions ordered by id, check the
count, create the attempt row, grade each question, compute the score and
persist everything; any exception aborts with no state returned. -/
def submitAttemptF (st : DBState) (quiz_id user_id : Nat)
    (time_spent_seconds : ℚ) (selected_options : List Nat) (now : Nat)
    (failAfter : Option Nat) : Except SubmitError (DBState × SubmitResult) :=
  match findQuiz st quiz_id with
  | none => .error .quizNotFound
  | some _ =>
    let questions := questionsOfQuiz st quiz_id
    if questions.length ≠ selected_options.length then .error .countMismatch
    else
      let attemptId := nextAttemptId st
      match gradeLoopF st attemptId failAfter 0 (questions.zip selected_options) with
      | .error e => .error e
      | .ok (correct_count, newAnswers) =>
        if questions.length = 0 then .error .zeroDivision
        else
          let score : ℚ := ((correct_count : ℚ) / (questions.length : ℚ)) * 100
          let attempt : QuizAttempt :=
            { id := attemptId, quiz_id := quiz_id, user_id := user_id,
              started_at := now, completed_at := some now,
              time_spent_seconds := some time_spent_seconds,
              score := some score }
          .ok ({ st with attempts := st.attempts ++ [attempt],
                         answers := st.answers ++ newAnswers },
               { attempt_id := attemptId, score := score,
                 correct_answers := correct_count,
                 total_questions := questions.length,
                 time_spent_seconds := time_spent_seconds })

/-- `submit_quiz_attempt` as shipped (no simulated store failure). -/
def submitAttempt (st : DBState) (quiz_id user_id : Nat)
    (time_spent_seconds : ℚ) (selected_options : List Nat) (now : Nat) :
    Except SubmitError (DBState × SubmitResult) :=
  submitAttemptF st quiz_id user_id time_spent_seconds selected_options now none

/-- The store state visible after a `submit_quiz_attempt` call:
`async with db.begin()` commits the new state on success and rolls the
transaction back (leaving the store unchanged) when an exception escapes. -/
def visibleSubmitState (st : DBState) (quiz_id user_id : Nat)
    (time_spent_seconds : ℚ) (selected_options : List Nat) (now : Nat)
    (failAfter : Option Nat) : DBState :=
  match submitAttemptF st quiz_id user_id time_spent_seconds selected_options now failAfter with
  | .ok (stNew, _) => stNew
  | .error _ => st

/-- Exceptions that can escape `start_quiz_attempt`. -/
inductive StartError where
  /-- `HTTPException(404, "Quiz not found")`. -/
  | quizNotFound
  /-- `HTTPException(404, "User not found")`. -/
  | userNotFound
deriving DecidableEq, Repr

/-- src/api/routes/quiz.py `start_quiz_attempt` (lines 9-45): verify the
quiz exists, verify the user exists, insert an Attempt row with only
`started_at` set, and return its id and timestamp. -/
def startQuizAttempt (st : DBState) (quiz_id user_id : Nat) (now : Nat) :
    Except StartError (DBState × Nat × Nat) :=
  match findQuiz st quiz_id with
  | none => .error .quizNotFound
  | some _ =>
    match findUser st user_id with
    | none => .error .userNotFound
    | some _ =>
      let attempt : QuizAttempt :=
        { id := nextAttemptId st, quiz_id := quiz_id, user_id := user_id,
          started_at := now, completed_at := none,
          time_spent_seconds := none, score := none }
      .ok ({ st with attempts := st.attempts ++ [attempt] },
           (attempt.id, now))

/-- Exceptions that can escape `get_quiz_attempt_details`. -/
inductive DetailError where
  /-- `HTTPException(404, "Quiz attempt not found")`. -/
  | attemptNotFound
  /-- Python `AttributeError`: `question.id` evaluated on `None` when the
  answer's question row is missing (quiz.py line 212). -/
  | attributeError
deriving DecidableEq, Repr

/-- Index of the first element satisfying `p`, scanning left to right
(the `for i, opt in enumerate(options): ... break` pattern). -/
def firstIdx (p : α → Bool) : List α → Option Nat
  | [] => none
  | x :: xs => if p x then some 0 else (firstIdx p xs).map (· + 1)

/-- One transcript entry of `get_quiz_attempt_details` (quiz.py lines
185-219). -/
structure AnswerDetail where
  question_id : Nat
  question_text : String
  selected_option_id : Option Nat
  /-- the reconstructed letter, as a code point (`chr(ord('A') + i)`). -/
  selected_option_letter : Option Nat
  correct_option_letter : Option Nat
  is_correct : Bool
  options : List (Nat × String × Bool)
deriving DecidableEq, Repr

/-- Build one transcript entry for a stored answer (quiz.py lines 185-219).
`if answer.selected_option_id:` is Python truthiness: both `None` and `0`
skip the scan.  Building the result dict evaluates `question.id` first
(line 212), which raises `AttributeError` when the question row is
missing — the `"Unknown"` fallback on `question_text` (line 213) is
therefore only reachable when the question exists. -/
def answerEntry (st : DBState) (answer : QuestionAnswer) :
    Except DetailError AnswerDetail :=
  let question? := findQuestion st answer.question_id
  let options := optionsOfQuestion st answer.question_id
  let selected_letter : Option Nat :=
    match answer.selected_option_id with
    | none => none
    | some oid =>
      if oid ≠ 0 then (firstIdx (fun o => o.id == oid) options).map (fun i => 65 + i)
      else none
  let correct_letter : Option Nat :=
    (firstIdx (fun o => o.is_correct) options).map (fun i => 65 + i)
  let options_data := options.map (fun o => (o.id, o.option_text, o.is_correct))
  match question? with
  | none => .error .attributeError
  | some q =>
    .ok { question_id := q.id,
          question_text := q.question_text,
          selected_option_id := answer.selected_option_id,
          selected_option_letter := selected_letter,
          correct_option_letter := correct_letter,
          is_correct := answer.is_correct,
          options := options_data }

/-- The `for answer in answers:` loop of `get_quiz_attempt_details`,
accumulating `answers_data` and propagating any exception. -/
def buildAnswersData (st : DBState) :
    List QuestionAnswer → Except DetailError (List AnswerDetail)
  | [] => .ok []
  | a :: rest =>
    match answerEntry st a with
    | .error e => .error e
    | .ok d =>
      match buildAnswersData st rest with
      | .error e => .error e
      | .ok ds => .ok (d :: ds)

/-- The response dict of `get_quiz_attempt_details`. -/
structure AttemptDetail where
  attempt_id : Nat
  quiz_id : Nat
  quiz_title : String
  user_id : Nat
  started_at : Nat
  completed_at : Option Nat
  time_spent_seconds : Option ℚ
  score : Option ℚ
  answers : List AnswerDetail
deriving DecidableEq, Repr

/-- src/api/routes/quiz.py `get_quiz_attempt_details` (lines 162-231):
fetch the attempt (404 if absent), its quiz (title "Unknown" if missing),
the attempt's answer rows (store order — the source has no `order_by`
and does not re-sort), and one transcript entry per answer. -/
def getQuizAttemptDetails (st : DBState) (attempt_id : Nat) :
    Except DetailError AttemptDetail :=
  match findAttempt st attempt_id with
  | none => .error .attemptNotFound
  | some attempt =>
    let quiz? := findQuiz st attempt.quiz_id
    let answers := answersOfAttempt st attempt_id
    match buildAnswersData st answers with
    | .error e => .error e
    | .ok answers_data =>
      .ok { attempt_id := attempt.id,
            quiz_id := attempt.quiz_id,
            quiz_title := match quiz? with | some q => q.title | none => "Unknown",
            user_id := attempt.user_id,
            started_at := attempt.started_at,
            completed_at := attempt.completed_at,
            time_spent_seconds := attempt.time_spent_seconds,
            score := attempt.score,
            answers := answers_data }

/-! Derived descriptions of a successful submission, used to state and
prove the claims; `submit_ok_form` ties them to `submitAttemptF`. -/

/-- The Answer rows produced by one pass of the grading loop. -/
def gradedRows (st : DBState) (attemptId : Nat) (pairs : List (Question × Nat)) :
    List QuestionAnswer :=
  pairs.map (fun p => gradeOne st attemptId p.1 p.2)

/-- The Answer rows a successful submission appends to the store. -/
def newAnswersOf (st : DBState) (quiz_id : Nat) (selected_options : List Nat) :
    List QuestionAnswer :=
  gradedRows st (nextAttemptId st) ((questionsOfQuiz st quiz_id).zip selected_options)

/-- The `correct_count` of a submission. -/
def correctCountOf (st : DBState) (quiz_id : Nat) (selected_options : List Nat) : Nat :=
  (newAnswersOf st quiz_id selected_options).countP (fun a => a.is_correct)

/-- The `score = (correct_count / len(questions)) * 100` of a submission. -/
def scoreOf (st : DBState) (quiz_id : Nat) (selected_options : List Nat) : ℚ :=
  ((correctCountOf st quiz_id selected_options : ℚ) /
    ((questionsOfQuiz st quiz_id).length : ℚ)) * 100

/-- The Attempt row a successful submission appends to the store. -/
def newAttemptOf (st : DBState) (quiz_id user_id : Nat) (time_spent_seconds : ℚ)
    (selected_options : List Nat) (now : Nat) : QuizAttempt :=
  { id := nextAttemptId st, quiz_id := quiz_id, user_id := user_id,
    started_at := now, completed_at := some now,
    time_spent_seconds := some time_spent_seconds,
    score := some (scoreOf st quiz_id selected_options) }

/-- The store state committed by a successful submission. -/
def postSubmitState (st : DBState) (quiz_id user_id : Nat) (time_spent_seconds : ℚ)
    (selected_options : List Nat) (now : Nat) : DBState :=
  { st with
    attempts := st.attempts ++ [newAttemptOf st quiz_id user_id time_spent_seconds selected_options now],
    answers := st.answers ++ newAnswersOf st quiz_id selected_options }

/-- The response of a successful submission. -/
def submitResultOf (st : DBState) (quiz_id : Nat) (time_spent_seconds : ℚ)
    (selected_options : List Nat) : SubmitResult :=
  { attempt_id := nextAttemptId st,
    score := scoreOf st quiz_id selected_options,
    correct_answers := correctCountOf st quiz_id selected_options,
    total_questions := (questionsOfQuiz st quiz_id).length,
    time_spent_seconds := time_spent_seconds }

/-- Whether a position of the submitted sequence picks the option marked
correct: the selected letter's index is in range and that option has
`is_correct = true`. -/
def picksCorrect (st : DBState) (q : Question) (c : Nat) : Bool :=
  let options := optionsOfQuestion st q.id
  let idx := optionIndex c
  if h : 0 ≤ idx ∧ idx < (options.length : Int) then
    (options.get ⟨idx.toNat, by omega⟩).is_correct
  else
    false

/-! Concrete example stores, used as witnesses (spec §8 scenarios). -/

/-- Scenario store: quiz 1 with two questions; question 1 owns options
1-4 with option 2 ("B") correct, question 2 owns options 5-8 with option
5 ("A") correct; one registered user. -/
def egState : DBState :=
  { users := [{ id := 1, username := "u", email := "e", hashed_password := "h",
                is_active := true }],
    quizzes := [{ id := 1, title := "Sample Quiz", description := none, creator_id := 1 }],
    questions := [{ id := 1, quiz_id := 1, question_text := "q1" },
                  { id := 2, quiz_id := 1, question_text := "q2" }],
    options := [{ id := 1, question_id := 1, option_text := "o1", is_correct := false },
                { id := 2, question_id := 1, option_text := "o2", is_correct := true },
                { id := 3, question_id := 1, option_text := "o3", is_correct := false },
                { id := 4, question_id := 1, option_text := "o4", is_correct := false },
                { id := 5, question_id := 2, option_text := "o5", is_correct := true },
                { id := 6, question_id := 2, option_text := "o6", is_correct := false },
                { id := 7, question_id := 2, option_text := "o7", is_correct := false },
                { id := 8, question_id := 2, option_text := "o8", is_correct := false }],
    attempts := [], answers := [] }

/-- A stored quiz that legitimately has zero questions. -/
def egEmptyQuizState : DBState :=
  { users := [{ id := 1, username := "u", email := "e", hashed_password := "h",
                is_active := true }],
    quizzes := [{ id := 1, title := "Empty Quiz", description := none, creator_id := 1 }],
    questions := [], options := [], attempts := [], answers := [] }

/-- A store whose attempt 1 carries an answer referencing question 99,
which no longer exists (the degraded-data read-back case). -/
def egOrphanState : DBState :=
  { users := [{ id := 1, username := "u", email := "e", hashed_password := "h",
                is_active := true }],
    quizzes := [{ id := 1, title := "T", description := none, creator_id := 1 }],
    questions := [], options := [],
    attempts := [{ id := 1, quiz_id := 1, user_id := 1, started_at := 0,
                   completed_at := none, time_spent_seconds := none, score := none }],
    answers := [{ attempt_id := 1, question_id := 99,
                  selected_option_id := none, is_correct := false }] }

/-- A store where attempt 1's two answer rows sit in descending
question-id order (question 2's row was stored before question 1's). -/
def egUnsortedState : DBState :=
  { users := [{ id := 1, username := "u", email := "e", hashed_password := "h",
                is_active := true }],
    quizzes := [{ id := 1, title := "T", description := none, creator_id := 1 }],
    questions := [{ id := 1, quiz_id := 1, question_text := "q1" },
                  { id := 2, quiz_id := 1, question_text := "q2" }],
    options := [],
    attempts := [{ id := 1, quiz_id := 1, user_id := 1, started_at := 0,
                   completed_at := none, time_spent_seconds := none, score := none }],
    answers := [{ attempt_id := 1, question_id := 2,
                  selected_option_id := none, is_correct := false },
                { attempt_id := 1, question_id := 1,
                  selected_option_id := none, is_correct := false }] }

/-- The transcript `get_quiz_attempt_details` returns on `egUnsortedState`. -/
def egUnsortedDetail : AttemptDetail :=
  { attempt_id := 1, quiz_id := 1, quiz_title := "T", user_id := 1,
    started_at := 0, completed_at := none, time_spent_seconds := none,
    score := none,
    answers := [{ question_id := 2, question_text := "q2", selected_option_id := none,
                  selected_option_letter := none, correct_option_letter := none,
                  is_correct := false, options := [] },
                { question_id := 1, question_text := "q1", selected_option_id := none,
                  selected_option_letter := none, correct_option_letter := none,
                  is_correct := false, options := [] }] }

/-! Helper lemmas. -/

theorem gradeOne_is_correct (st : DBState) (attemptId : Nat) (q : Question) (c : Nat) :
    (gradeOne st attemptId q c).is_correct = picksCorrect st q c := by
  simp only [gradeOne, picksCorrect]
  split <;> rfl

theorem gradeOne_attempt_id (st : DBState) (attemptId : Nat) (q : Question) (c : Nat) :
    (gradeOne st attemptId q c).attempt_id = attemptId := by
  simp only [gradeOne]
  split <;> rfl

theorem gradeOne_question_id (st : DBState) (attemptId : Nat) (q : Question) (c : Nat) :
    (gradeOne st attemptId q c).question_id = q.id := by
  simp only [gradeOne]
  split <;> rfl

theorem gradeLoopF_none (st : DBState) (aid : Nat) :
    ∀ (i : Nat) (l : List (Question × Nat)),
      gradeLoopF st aid none i l =
        .ok ((gradedRows st aid l).countP (fun a => a.is_correct), gradedRows st aid l) := by
  intro i l
  induction l generalizing i with
  | nil => rfl
  | cons p rest ih =>
    simp only [gradeLoopF, gradedRows, List.map_cons, List.countP_cons, ih (i + 1),
      reduceCtorEq, if_false]
    rw [Nat.add_comm]

theorem gradeLoopF_ok (st : DBState) (aid : Nat) (f : Option Nat) :
    ∀ (i : Nat) (l : List (Question × Nat)) (cnt : Nat) (rows : List QuestionAnswer),
      gradeLoopF st aid f i l = .ok (cnt, rows) →
      cnt = (gradedRows st aid l).countP (fun a => a.is_correct) ∧
      rows = gradedRows st aid l := by
  intro i l
  induction l generalizing i with
  | nil =>
    intro cnt rows h
    have h2 : (Except.ok ((0 : Nat), ([] : List QuestionAnswer)) : Except SubmitError _) = .ok (cnt, rows) := h
    cases h2
    exact ⟨rfl, rfl⟩
  | cons p rest ih =>
    intro cnt rows h
    simp only [gradeLoopF] at h
    split at h
    · exact absurd h (by simp)
    · cases hrec : gradeLoopF st aid f (i + 1) rest with
      | error e => rw [hrec] at h; exact absurd h (by simp)
      | ok pr =>
        rw [hrec] at h
        obtain ⟨hcnt, hrows⟩ := ih (i + 1) pr.1 pr.2 (by rw [hrec])
        cases h
        simp only [gradedRows, List.map_cons, List.countP_cons] at *
        constructor
        · rw [hcnt]; omega
        · rw [hrows]

theorem mem_attempts_id_le (l : List QuizAttempt) (a : QuizAttempt) (h : a ∈ l) :
    a.id ≤ l.foldr (fun a m => max a.id m) 0 := by
  induction l with
  | nil => cases h
  | cons b rest ih =>
    rcases List.mem_cons.mp h with rfl | hm
    · exact Nat.le_max_left _ _
    · exact Nat.le_trans (ih hm) (Nat.le_max_right _ _)

theorem attempt_id_lt_next (st : DBState) (a : QuizAttempt) (h : a ∈ st.attempts) :
    a.id < nextAttemptId st := by
  have := mem_attempts_id_le st.attempts a h
  unfold nextAttemptId
  omega

theorem findAttempt_next_none (st : DBState) :
    findAttempt st (nextAttemptId st) = none := by
  unfold findAttempt
  have : st.attempts.filter (fun a => a.id == nextAttemptId st) = [] := by
    apply List.filter_eq_nil_iff.mpr
    intro a ha
    have := attempt_id_lt_next st a ha
    simp only [beq_iff_eq]
    omega
  rw [this]
  rfl

theorem submit_ok_form (st : DBState) (quiz_id user_id : Nat) (t : ℚ)
    (sel : List Nat) (now : Nat)
    (hq : (findQuiz st quiz_id).isSome = true)
    (hlen : (questionsOfQuiz st quiz_id).length = sel.length)
    (h0 : 0 < sel.length) :
    submitAttempt st quiz_id user_id t sel now =
      .ok (postSubmitState st quiz_id user_id t sel now,
           submitResultOf st quiz_id t sel) := by
  obtain ⟨qz, hqz⟩ := Option.isSome_iff_exists.mp hq
  unfold submitAttempt submitAttemptF
  rw [hqz]
  simp only [hlen, ne_eq, not_true_eq_false, if_false,
    gradeLoopF_none st (nextAttemptId st) 0 ((questionsOfQuiz st quiz_id).zip sel)]
  have hne : ¬ sel.length = 0 := by omega
  simp only [hlen, hne, if_false]
  unfold postSubmitState newAttemptOf submitResultOf scoreOf correctCountOf newAnswersOf
  rw [hlen]

theorem submitF_ok_inv (st : DBState) (quiz_id user_id : Nat) (t : ℚ)
    (sel : List Nat) (now : Nat) (f : Option Nat) (st2 : DBState) (r : SubmitResult)
    (h : submitAttemptF st quiz_id user_id t sel now f = .ok (st2, r)) :
    (findQuiz st quiz_id).isSome = true ∧
    (questionsOfQuiz st quiz_id).length = sel.length ∧
    0 < sel.length ∧
    st2 = postSubmitState st quiz_id user_id t sel now ∧
    r = submitResultOf st quiz_id t sel := by
  unfold submitAttemptF at h
  cases hqz : findQuiz st quiz_id with
  | none => rw [hqz] at h; exact absurd h (by simp)
  | some qz =>
    rw [hqz] at h
    simp only at h
    split at h
    · exact absurd h (by simp)
    · rename_i hlen
      cases hloop : gradeLoopF st (nextAttemptId st) f 0 ((questionsOfQuiz st quiz_id).zip sel) with
      | error e => rw [hloop] at h; exact absurd h (by simp)
      | ok pr =>
        obtain ⟨cnt, rows⟩ := pr
        rw [hloop] at h
        simp only at h
        split at h
        · exact absurd h (by simp)
        · rename_i hzero
          obtain ⟨hcnt, hrows⟩ :=
            gradeLoopF_ok st (nextAttemptId st) f 0 _ cnt rows hloop
          cases h
          push_neg at hlen
          subst hcnt
          subst hrows
          refine ⟨rfl, hlen, by omega, ?_, ?_⟩
          · unfold postSubmitState newAttemptOf scoreOf correctCountOf newAnswersOf
            rw [hlen]
          · unfold submitResultOf scoreOf correctCountOf newAnswersOf
            rfl

theorem newAnswersOf_length (st : DBState) (quiz_id : Nat) (sel : List Nat)
    (hlen : (questionsOfQuiz st quiz_id).length = sel.length) :
    (newAnswersOf st quiz_id sel).length = sel.length := by
  unfold newAnswersOf gradedRows
  rw [List.length_map, List.length_zip, hlen, min_self]

theorem mem_newAnswersOf_attempt_id (st : DBState) (quiz_id : Nat) (sel : List Nat)
    (a : QuestionAnswer) (ha : a ∈ newAnswersOf st quiz_id sel) :
    a.attempt_id = nextAttemptId st := by
  unfold newAnswersOf gradedRows at ha
  obtain ⟨p, _, rfl⟩ := List.mem_map.mp ha
  exact gradeOne_attempt_id st (nextAttemptId st) p.1 p.2

theorem pyUpper_idem (c : Nat) : pyUpper (pyUpper c) = pyUpper c := by
  by_cases h : 97 ≤ c ∧ c ≤ 122
  · have h1 : pyUpper c = c - 32 := if_pos h
    rw [h1]
    exact if_neg (by omega)
  · have h1 : pyUpper c = c := if_neg h
    rw [h1]
    exact h1

theorem optionIndex_pyUpper (c : Nat) : optionIndex (pyUpper c) = optionIndex c := by
  unfold optionIndex
  rw [pyUpper_idem]

theorem gradeOne_pyUpper (st : DBState) (aid : Nat) (q : Question) (c : Nat) :
    gradeOne st aid q (pyUpper c) = gradeOne st aid q c := by
  simp only [gradeOne, optionIndex_pyUpper]

theorem gradeLoopF_pyUpper (st : DBState) (aid : Nat) (f : Option Nat) :
    ∀ (i : Nat) (qs : List Question) (sel : List Nat),
      gradeLoopF st aid f i (qs.zip (sel.map pyUpper)) =
        gradeLoopF st aid f i (qs.zip sel) := by
  intro i qs
  induction qs generalizing i with
  | nil => intro sel; rfl
  | cons q rest ih =>
    intro sel
    cases sel with
    | nil => rfl
    | cons c cs =>
      have h2 := ih (i + 1) cs
      simp only [List.zip] at h2
      simp only [List.map_cons, List.zip, List.zipWith_cons_cons, gradeLoopF,
        gradeOne_pyUpper, h2]

/-- C9: letter input is case-insensitive — submitting the uppercased
letter sequence produces exactly the same outcome (same per-question
answer rows, same score, same everything) as submitting the original
sequence, at every position. -/
theorem submit_case_insensitive (st : DBState) (quiz_id user_id : Nat) (t : ℚ)
    (sel : List Nat) (now : Nat) :
    submitAttempt st quiz_id user_id t (sel.map pyUpper) now =
      submitAttempt st quiz_id user_id t sel now := by
  unfold submitAttempt submitAttemptF
  cases findQuiz st quiz_id with
  | none => rfl
  | some qz =>
    simp only [List.length_map, gradeLoopF_pyUpper]

/-- C2: `submit_quiz_attempt` fails with the count-mismatch validation
error exactly when the quiz exists and the number of submitted letters
differs from the quiz's question count; when the counts match (and the
quiz is non-empty) validation passes, the submission succeeds, and one
answer row is graded for every question. -/
theorem submit_count_validation (st : DBState) (quiz_id user_id : Nat) (t : ℚ)
    (sel : List Nat) (now : Nat) :
    (submitAttempt st quiz_id user_id t sel now = .error .countMismatch ↔
      (findQuiz st quiz_id).isSome = true ∧
        (questionsOfQuiz st quiz_id).length ≠ sel.length) ∧
    ((findQuiz st quiz_id).isSome = true →
      (questionsOfQuiz st quiz_id).length = sel.length →
      0 < sel.length →
      submitAttempt st quiz_id user_id t sel now =
        .ok (postSubmitState st quiz_id user_id t sel now,
             submitResultOf st quiz_id t sel) ∧
      (newAnswersOf st quiz_id sel).length = sel.length) := by
  constructor
  · constructor
    · intro h
      unfold submitAttempt submitAttemptF at h
      cases hqz : findQuiz st quiz_id with
      | none => rw [hqz] at h; exact absurd h (by simp)
      | some qz =>
        rw [hqz] at h
        simp only at h
        refine ⟨rfl, ?_⟩
        by_contra hne
        rw [if_neg (not_ne_iff.mpr hne), gradeLoopF_none] at h
        simp only at h
        by_cases h0 : (questionsOfQuiz st quiz_id).length = 0
        · rw [if_pos h0] at h; exact absurd h (by simp)
        · rw [if_neg h0] at h; exact absurd h (by simp)
    · rintro ⟨hq, hlen⟩
      obtain ⟨qz, hqz⟩ := Option.isSome_iff_exists.mp hq
      unfold submitAttempt submitAttemptF
      rw [hqz]
      simp only [hlen, ne_eq, not_false_iff, if_true]
  · intro hq hlen h0
    exact ⟨submit_ok_form st quiz_id user_id t sel now hq hlen h0,
           newAnswersOf_length st quiz_id sel hlen⟩

/-- C2 witness: on the scenario store, a 3-letter submission against the
2-question quiz is rejected with the count-mismatch error, while the
matching 2-letter submission succeeds with one answer per question. -/
theorem submit_count_validation_witness :
    (submitAttempt egState 1 1 30 [66, 65] 0 =
      .ok (postSubmitState egState 1 1 30 [66, 65] 0,
           submitResultOf egState 1 30 [66, 65]) ∧
     (newAnswersOf egState 1 [66, 65]).length = 2) ∧
    submitAttempt egState 1 1 30 [65, 66, 67] 0 = .error .countMismatch :=
  ⟨(submit_count_validation egState 1 1 30 [66, 65] 0).2 (by decide) (by decide)
      (by decide),
   (submit_count_validation egState 1 1 30 [65, 66, 67] 0).1.mpr
      ⟨by decide, by decide⟩⟩

/-- C4: the code has no zero-question guard — submitting the empty letter
sequence against a stored quiz with zero questions raises Python's
`ZeroDivisionError` at `score = (correct_count / len(questions)) * 100`
instead of returning score 0 or rejecting the quiz as unscoreable. -/
theorem submit_zero_questions_zero_division :
    submitAttempt egEmptyQuizState 1 1 30 [] 0 = .error .zeroDivision ∧
    (questionsOfQuiz egEmptyQuizState 1).length = 0 := by
  constructor
  · rfl
  · rfl

/-- C6: submission is atomic — either an exception escapes (any of the
four modelled errors, including a simulated store failure at any point of
the answer-insertion loop), in which case the visible store is completely
unchanged and no attempt row with the fresh id exists, or the submission
succeeds and the new Attempt row together with one Answer row per
question (all carrying the returned attempt id) become visible together. -/
theorem submit_atomicity (st : DBState) (quiz_id user_id : Nat) (t : ℚ)
    (sel : List Nat) (now : Nat) (failAfter : Option Nat) :
    ((∃ e, submitAttemptF st quiz_id user_id t sel now failAfter = .error e) ∧
      visibleSubmitState st quiz_id user_id t sel now failAfter = st ∧
      findAttempt st (nextAttemptId st) = none) ∨
    (∃ r, submitAttemptF st quiz_id user_id t sel now failAfter =
        .ok (postSubmitState st quiz_id user_id t sel now, r) ∧
      visibleSubmitState st quiz_id user_id t sel now failAfter =
        postSubmitState st quiz_id user_id t sel now ∧
      (postSubmitState st quiz_id user_id t sel now).attempts =
        st.attempts ++ [newAttemptOf st quiz_id user_id t sel now] ∧
      r.attempt_id = (newAttemptOf st quiz_id user_id t sel now).id ∧
      (postSubmitState st quiz_id user_id t sel now).answers =
        st.answers ++ newAnswersOf st quiz_id sel ∧
      (newAnswersOf st quiz_id sel).length = r.total_questions ∧
      (newAnswersOf st quiz_id sel).all
        (fun a => a.attempt_id == r.attempt_id) = true) := by
  cases h : submitAttemptF st quiz_id user_id t sel now failAfter with
  | error e =>
    left
    refine ⟨⟨e, rfl⟩, ?_, findAttempt_next_none st⟩
    unfold visibleSubmitState
    rw [h]
  | ok pr =>
    obtain ⟨st2, r⟩ := pr
    obtain ⟨hq, hlen, h0, hst, hr⟩ :=
      submitF_ok_inv st quiz_id user_id t sel now failAfter st2 r h
    subst hst
    subst hr
    right
    refine ⟨_, rfl, ?_, rfl, rfl, rfl, ?_, ?_⟩
    · unfold visibleSubmitState
      rw [h]
    · rw [newAnswersOf_length st quiz_id sel hlen]
      exact hlen.symm
    · rw [List.all_eq_true]
      intro a ha
      rw [beq_iff_eq]
      exact mem_newAnswersOf_attempt_id st quiz_id sel a ha

/-- C10: `submit_quiz_attempt` never verifies that the user exists —
for a user id matching no stored user but a valid quiz and a
count-matching letter sequence, `start_quiz_attempt` fails with the
user-not-found error while submission succeeds and records an Attempt
row attributed to that user id. -/
theorem submit_ignores_missing_user (st : DBState) (quiz_id user_id : Nat) (t : ℚ)
    (sel : List Nat) (now : Nat)
    (huser : ∀ u ∈ st.users, u.id ≠ user_id)
    (hq : (findQuiz st quiz_id).isSome = true)
    (hlen : (questionsOfQuiz st quiz_id).length = sel.length)
    (h0 : 0 < sel.length) :
    startQuizAttempt st quiz_id user_id now = .error .userNotFound ∧
    submitAttempt st quiz_id user_id t sel now =
      .ok (postSubmitState st quiz_id user_id t sel now,
           submitResultOf st quiz_id t sel) ∧
    (newAttemptOf st quiz_id user_id t sel now).user_id = user_id := by
  refine ⟨?_, submit_ok_form st quiz_id user_id t sel now hq hlen h0, rfl⟩
  obtain ⟨qz, hqz⟩ := Option.isSome_iff_exists.mp hq
  unfold startQuizAttempt
  rw [hqz]
  have hu : findUser st user_id = none := by
    unfold findUser
    rw [List.filter_eq_nil_iff.mpr (fun u hu => by
      simp only [beq_iff_eq]
      exact huser u hu)]
    rfl
  rw [hu]

/-- C10 witness: user id 5 matches no stored user of the scenario store;
starting an attempt fails user-not-found, submitting succeeds and the
recorded Attempt row carries user id 5. -/
theorem submit_ignores_missing_user_witness :
    startQuizAttempt egState 1 5 0 = .error .userNotFound ∧
    submitAttempt egState 1 5 30 [66, 65] 0 =
      .ok (postSubmitState egState 1 5 30 [66, 65] 0,
           submitResultOf egState 1 30 [66, 65]) ∧
    (newAttemptOf egState 1 5 30 [66, 65] 0).user_id = 5 :=
  submit_ignores_missing_user egState 1 5 30 [66, 65] 0 (by decide) (by decide)
    (by decide) (by decide)

/-- C3: for a quiz with N ≥ 1 questions, submission succeeds and both
returns and persists `score = (C / N) * 100` as an unrounded rational in
[0, 100], where C counts exactly the positional selections that pick the
option marked correct. -/
theorem submit_score_formula (st : DBState) (quiz_id user_id : Nat) (t : ℚ)
    (sel : List Nat) (now : Nat)
    (hq : (findQuiz st quiz_id).isSome = true)
    (hlen : (questionsOfQuiz st quiz_id).length = sel.length)
    (h0 : 0 < sel.length) :
    ∃ st2 r, submitAttempt st quiz_id user_id t sel now = .ok (st2, r) ∧
      r.total_questions = sel.length ∧
      r.correct_answers =
        ((questionsOfQuiz st quiz_id).zip sel).countP
          (fun p => picksCorrect st p.1 p.2) ∧
      r.score = ((r.correct_answers : ℚ) / (r.total_questions : ℚ)) * 100 ∧
      0 ≤ r.score ∧ r.score ≤ 100 ∧
      st2.attempts = st.attempts ++ [newAttemptOf st quiz_id user_id t sel now] ∧
      (newAttemptOf st quiz_id user_id t sel now).score = some r.score := by
  have hC : correctCountOf st quiz_id sel ≤ sel.length := by
    have h1 := List.countP_le_length (fun a => a.is_correct)
      (l := newAnswersOf st quiz_id sel)
    rw [newAnswersOf_length st quiz_id sel hlen] at h1
    exact h1
  refine ⟨_, _, submit_ok_form st quiz_id user_id t sel now hq hlen h0, hlen,
          ?_, rfl, ?_, ?_, rfl, rfl⟩
  · show correctCountOf st quiz_id sel = _
    unfold correctCountOf newAnswersOf gradedRows
    rw [List.countP_map]
    simp only [Function.comp_def, gradeOne_is_correct]
  · show 0 ≤ scoreOf st quiz_id sel
    unfold scoreOf
    positivity
  · show scoreOf st quiz_id sel ≤ 100
    unfold scoreOf
    have hN : (0 : ℚ) < ((questionsOfQuiz st quiz_id).length : ℚ) := by
      rw [hlen]
      exact_mod_cast h0
    have hdiv : (correctCountOf st quiz_id sel : ℚ) /
        ((questionsOfQuiz st quiz_id).length : ℚ) ≤ 1 := by
      rw [div_le_one hN, hlen]
      exact_mod_cast hC
    calc (correctCountOf st quiz_id sel : ℚ) /
          ((questionsOfQuiz st quiz_id).length : ℚ) * 100
        ≤ 1 * 100 := by
          exact mul_le_mul_of_nonneg_right hdiv (by norm_num)
      _ = 100 := one_mul 100

/-- C3 witness: scenario A — submitting "B","A" on the two-question store
scores 100 with both selections correct. -/
theorem submit_score_formula_witness :
    ∃ st2 r, submitAttempt egState 1 1 30 [66, 65] 0 = .ok (st2, r) ∧
      r.total_questions = ([66, 65] : List Nat).length ∧
      r.correct_answers =
        ((questionsOfQuiz egState 1).zip [66, 65]).countP
          (fun p => picksCorrect egState p.1 p.2) ∧
      r.score = ((r.correct_answers : ℚ) / (r.total_questions : ℚ)) * 100 ∧
      0 ≤ r.score ∧ r.score ≤ 100 ∧
      st2.attempts = egState.attempts ++ [newAttemptOf egState 1 1 30 [66, 65] 0] ∧
      (newAttemptOf egState 1 1 30 [66, 65] 0).score = some r.score :=
  submit_score_formula egState 1 1 30 [66, 65] 0 (by decide) (by decide) (by decide)

/-- C5: a submitted letter whose computed index is out of range for the
question's option list is tolerated — the submission still succeeds, one
answer row is recorded per question, and the row at that position carries
`selected_option_id = null` and `is_correct = false`. -/
theorem submit_out_of_range (st : DBState) (quiz_id user_id : Nat) (t : ℚ)
    (sel : List Nat) (now : Nat) (i : Nat) (q : Question) (L : Nat)
    (hq : (findQuiz st quiz_id).isSome = true)
    (hlen : (questionsOfQuiz st quiz_id).length = sel.length)
    (h0 : 0 < sel.length)
    (hqi : (questionsOfQuiz st quiz_id)[i]? = some q)
    (hLi : sel[i]? = some L)
    (hout : ¬ (0 ≤ optionIndex L ∧
               optionIndex L < ((optionsOfQuestion st q.id).length : Int))) :
    submitAttempt st quiz_id user_id t sel now =
      .ok (postSubmitState st quiz_id user_id t sel now,
           submitResultOf st quiz_id t sel) ∧
    (newAnswersOf st quiz_id sel).length = sel.length ∧
    (newAnswersOf st quiz_id sel)[i]? =
      some { attempt_id := nextAttemptId st, question_id := q.id,
             selected_option_id := none, is_correct := false } := by
  refine ⟨submit_ok_form st quiz_id user_id t sel now hq hlen h0,
          newAnswersOf_length st quiz_id sel hlen, ?_⟩
  have hz : ((questionsOfQuiz st quiz_id).zip sel)[i]? = some (q, L) :=
    List.getElem?_zip_eq_some.mpr ⟨hqi, hLi⟩
  unfold newAnswersOf gradedRows
  rw [List.getElem?_map, hz]
  simp only [Option.map_some']
  congr 1
  simp only [gradeOne]
  rw [dif_neg hout]

/-- C5 witness: scenario C — letter "Z" against the four-option first
question records a null answer scored wrong while the submission succeeds. -/
theorem submit_out_of_range_witness :
    submitAttempt egState 1 1 30 [90, 65] 0 =
      .ok (postSubmitState egState 1 1 30 [90, 65] 0,
           submitResultOf egState 1 30 [90, 65]) ∧
    (newAnswersOf egState 1 [90, 65]).length = ([90, 65] : List Nat).length ∧
    (newAnswersOf egState 1 [90, 65])[0]? =
      some { attempt_id := nextAttemptId egState, question_id := 1,
             selected_option_id := none, is_correct := false } :=
  submit_out_of_range egState 1 1 30 [90, 65] 0 0
    { id := 1, quiz_id := 1, question_text := "q1" } 90
    (by decide) (by decide) (by decide) (by decide) (by decide) (by decide)

/-- C7: the degraded-data fallback is broken for missing questions —
on a store whose attempt references a question that no longer exists,
`get_quiz_attempt_details` evaluates `question.id` on `None` (quiz.py
line 212) and the whole transcript fetch fails with `AttributeError`
instead of rendering the entry with the "Unknown" sentinel; the guarded
`quiz_title` fallback for a missing quiz does work. -/
theorem detail_missing_question_attribute_error :
    getQuizAttemptDetails egOrphanState 1 = .error .attributeError ∧
    findQuestion egOrphanState 99 = none ∧
    (getQuizAttemptDetails
        { egOrphanState with quizzes := [], answers := [] } 1).map
      (fun d => d.quiz_title) = .ok "Unknown" := by
  refine ⟨rfl, rfl, rfl⟩

theorem findQuestion_id (st : DBState) (question_id : Nat) (q : Question)
    (h : findQuestion st question_id = some q) : q.id = question_id := by
  unfold findQuestion at h
  have hm : q ∈ st.questions.filter (fun x => x.id == question_id) :=
    List.mem_of_mem_head? (Option.mem_def.mpr h)
  have := (List.mem_filter.mp hm).2
  simpa using this

theorem answerEntry_ok_question_id (st : DBState) (a : QuestionAnswer)
    (d : AnswerDetail) (h : answerEntry st a = .ok d) :
    d.question_id = a.question_id := by
  unfold answerEntry at h
  cases hq : findQuestion st a.question_id with
  | none => rw [hq] at h; exact absurd h (by simp)
  | some q =>
    rw [hq] at h
    simp only at h
    cases h
    exact findQuestion_id st a.question_id q hq

theorem buildAnswersData_question_ids (st : DBState) :
    ∀ (l : List QuestionAnswer) (ds : List AnswerDetail),
      buildAnswersData st l = .ok ds →
      ds.map (fun e => e.question_id) = l.map (fun a => a.question_id) := by
  intro l
  induction l with
  | nil =>
    intro ds h
    have h2 : (Except.ok ([] : List AnswerDetail) : Except DetailError _) = .ok ds := h
    cases h2
    rfl
  | cons a rest ih =>
    intro ds h
    simp only [buildAnswersData] at h
    cases he : answerEntry st a with
    | error e => rw [he] at h; exact absurd h (by simp)
    | ok d =>
      rw [he] at h
      cases hr : buildAnswersData st rest with
      | error e => rw [hr] at h; exact absurd h (by simp)
      | ok ds2 =>
        rw [hr] at h
        simp only at h
        cases h
        simp only [List.map_cons, ih ds2 hr, answerEntry_ok_question_id st a d he]

/-- C8 counterexample: on a store whose two answer rows for attempt 1 sit
in descending question-id order, the transcript presents question ids
[2, 1] — not sorted ascending, because the source fetches the rows with
no `order_by` and never re-sorts them. -/
theorem detail_answers_not_sorted_counterexample :
    (getQuizAttemptDetails egUnsortedState 1).map
      (fun d => d.answers.map (fun e => e.question_id)) = .ok [2, 1] ∧
    ¬ List.Sorted (· ≤ ·) ([2, 1] : List Nat) := by
  constructor
  · rfl
  · decide

/-- C8 (amended): `get_quiz_attempt_details` presents the attempt's
answers exactly in the order the store returns them (the rows matching
the attempt id, in stored order) with no re-sorting. -/
theorem detail_answers_store_order (st : DBState) (attempt_id : Nat)
    (d : AttemptDetail) (h : getQuizAttemptDetails st attempt_id = .ok d) :
    d.answers.map (fun e => e.question_id) =
      (answersOfAttempt st attempt_id).map (fun a => a.question_id) := by
  unfold getQuizAttemptDetails at h
  cases ha : findAttempt st attempt_id with
  | none => rw [ha] at h; exact absurd h (by simp)
  | some attempt =>
    rw [ha] at h
    simp only at h
    cases hb : buildAnswersData st (answersOfAttempt st attempt_id) with
    | error e => rw [hb] at h; exact absurd h (by simp)
    | ok ds =>
      rw [hb] at h
      simp only at h
      cases h
      exact buildAnswersData_question_ids st _ ds hb

/-- C8 amended-claim witness: the unsorted store's transcript lists its
answer rows in store order. -/
theorem detail_answers_store_order_witness :
    egUnsortedDetail.answers.map (fun e => e.question_id) =
      (answersOfAttempt egUnsortedState 1).map (fun a => a.question_id) :=
  detail_answers_store_order egUnsortedState 1 egUnsortedDetail rfl

theorem mem_of_getElem?_some {α : Type} {l : List α} {i : Nat} {a : α}
    (h : l[i]? = some a) : a ∈ l := by
  obtain ⟨hlt, hget⟩ := List.getElem?_eq_some.mp h
  exact hget ▸ List.getElem_mem hlt

theorem firstIdx_beq_id :
    ∀ (l : List QuestionOption), l.Pairwise (fun a b => a.id ≠ b.id) →
      ∀ (i : Nat) (o : QuestionOption), l[i]? = some o →
        firstIdx (fun x => x.id == o.id) l = some i := by
  intro l
  induction l with
  | nil => intro _ i o h; simp at h
  | cons x xs ih =>
    intro hpw i o h
    obtain ⟨hx, hxs⟩ := List.pairwise_cons.mp hpw
    cases i with
    | zero =>
      have hxo : x = o := by simpa using h
      subst hxo
      simp [firstIdx]
    | succ n =>
      have hn : xs[n]? = some o := by simpa using h
      have hmem : o ∈ xs := mem_of_getElem?_some hn
      have hne : (x.id == o.id) = false := by
        simp only [beq_eq_false_iff_ne, ne_eq]
        exact hx o hmem
      simp [firstIdx, hne, ih hxs n o hn]

theorem optionsOfQuestion_pairwise (st : DBState) (question_id : Nat)
    (hPK : st.options.Pairwise (fun a b => a.id ≠ b.id)) :
    (optionsOfQuestion st question_id).Pairwise (fun a b => a.id ≠ b.id) := by
  unfold optionsOfQuestion
  exact ((List.perm_insertionSort _ _).pairwise_iff
    (fun hxy => hxy.symm)).mpr (hPK.filter (fun o => o.question_id == question_id))

theorem mem_optionsOfQuestion (st : DBState) (question_id : Nat)
    (o : QuestionOption) (h : o ∈ optionsOfQuestion st question_id) :
    o ∈ st.options := by
  unfold optionsOfQuestion at h
  exact (List.mem_filter.mp ((List.perm_insertionSort _ _).mem_iff.mp h)).1

theorem mem_questionsOfQuiz (st : DBState) (quiz_id : Nat) (q : Question)
    (h : q ∈ questionsOfQuiz st quiz_id) : q ∈ st.questions := by
  unfold questionsOfQuiz at h
  exact (List.mem_filter.mp ((List.perm_insertionSort _ _).mem_iff.mp h)).1

theorem findQuestion_isSome_of_mem (st : DBState) (q : Question)
    (h : q ∈ st.questions) : (findQuestion st q.id).isSome = true := by
  unfold findQuestion
  have hm : q ∈ st.questions.filter (fun x => x.id == q.id) :=
    List.mem_filter.mpr ⟨h, by simp⟩
  cases hf : st.questions.filter (fun x => x.id == q.id) with
  | nil => rw [hf] at hm; cases hm
  | cons y ys => rfl

theorem answerEntry_fields (st : DBState) (a : QuestionAnswer) (q : Question)
    (hq : findQuestion st a.question_id = some q) :
    ∃ d, answerEntry st a = .ok d ∧
      d.question_id = q.id ∧
      d.selected_option_letter =
        (match a.selected_option_id with
         | none => none
         | some oid =>
           if oid ≠ 0 then
             (firstIdx (fun o => o.id == oid)
               (optionsOfQuestion st a.question_id)).map (fun i => 65 + i)
           else none) := by
  unfold answerEntry
  rw [hq]
  exact ⟨_, rfl, rfl, rfl⟩

theorem buildAnswersData_pointwise (st : DBState) :
    ∀ (l : List QuestionAnswer),
      (∀ a ∈ l, ∃ d, answerEntry st a = .ok d) →
      ∃ ds, buildAnswersData st l = .ok ds ∧ ds.length = l.length ∧
        ∀ (i : Nat) (a : QuestionAnswer), l[i]? = some a →
          ∃ d, ds[i]? = some d ∧ answerEntry st a = .ok d := by
  intro l
  induction l with
  | nil =>
    intro _
    exact ⟨[], rfl, rfl, by intro i a h; simp at h⟩
  | cons a rest ih =>
    intro h
    obtain ⟨d, hd⟩ := h a (List.mem_cons_self a rest)
    obtain ⟨ds, hds, hlength, hpt⟩ := ih (fun b hb => h b (List.mem_cons_of_mem a hb))
    refine ⟨d :: ds, ?_, by simp [hlength], ?_⟩
    · simp only [buildAnswersData, hd, hds]
    · intro i b hb
      cases i with
      | zero =>
        have hab : a = b := by simpa using hb
        subst hab
        exact ⟨d, by simp, hd⟩
      | succ n =>
        have hb2 : rest[n]? = some b := by simpa using hb
        obtain ⟨d2, hd2, he2⟩ := hpt n b hb2
        exact ⟨d2, by simpa using hd2, he2⟩

theorem findAttempt_post (st : DBState) (quiz_id user_id : Nat) (t : ℚ)
    (sel : List Nat) (now : Nat) :
    findAttempt (postSubmitState st quiz_id user_id t sel now) (nextAttemptId st) =
      some (newAttemptOf st quiz_id user_id t sel now) := by
  unfold findAttempt
  rw [show (postSubmitState st quiz_id user_id t sel now).attempts =
        st.attempts ++ [newAttemptOf st quiz_id user_id t sel now] from rfl]
  rw [List.filter_append]
  have h1 : st.attempts.filter (fun a => a.id == nextAttemptId st) = [] :=
    List.filter_eq_nil_iff.mpr (fun a ha => by
      have := attempt_id_lt_next st a ha
      simp only [beq_iff_eq]
      omega)
  rw [h1]
  simp [newAttemptOf]

theorem answersOfAttempt_post (st : DBState) (quiz_id user_id : Nat) (t : ℚ)
    (sel : List Nat) (now : Nat)
    (hFK : ∀ a ∈ st.answers, ∃ b ∈ st.attempts, b.id = a.attempt_id) :
    answersOfAttempt (postSubmitState st quiz_id user_id t sel now)
        (nextAttemptId st) = newAnswersOf st quiz_id sel := by
  unfold answersOfAttempt
  rw [show (postSubmitState st quiz_id user_id t sel now).answers =
        st.answers ++ newAnswersOf st quiz_id sel from rfl]
  rw [List.filter_append]
  have h1 : st.answers.filter (fun a => a.attempt_id == nextAttemptId st) = [] :=
    List.filter_eq_nil_iff.mpr (fun a ha => by
      obtain ⟨b, hb, hbid⟩ := hFK a ha
      have := attempt_id_lt_next st b hb
      simp only [beq_iff_eq]
      omega)
  have h2 : (newAnswersOf st quiz_id sel).filter
      (fun a => a.attempt_id == nextAttemptId st) = newAnswersOf st quiz_id sel :=
    List.filter_eq_self.mpr (fun a ha => by
      rw [beq_iff_eq]
      exact mem_newAnswersOf_attempt_id st quiz_id sel a ha)
  rw [h1, h2, List.nil_append]

theorem answerEntry_post (st : DBState) (quiz_id user_id : Nat) (t : ℚ)
    (sel : List Nat) (now : Nat) (a : QuestionAnswer) :
    answerEntry (postSubmitState st quiz_id user_id t sel now) a =
      answerEntry st a := rfl

theorem buildAnswersData_post (st : DBState) (quiz_id user_id : Nat) (t : ℚ)
    (sel : List Nat) (now : Nat) :
    ∀ (l : List QuestionAnswer),
      buildAnswersData (postSubmitState st quiz_id user_id t sel now) l =
        buildAnswersData st l := by
  intro l
  induction l with
  | nil => rfl
  | cons a rest ih =>
    simp only [buildAnswersData, answerEntry_post, ih]

theorem gradeOne_in_range (st : DBState) (aid : Nat) (q : Question) (c : Nat)
    (hin : 0 ≤ optionIndex c ∧
           optionIndex c < ((optionsOfQuestion st q.id).length : Int)) :
    gradeOne st aid q c =
      { attempt_id := aid, question_id := q.id,
        selected_option_id :=
          some ((optionsOfQuestion st q.id).get
            ⟨(optionIndex c).toNat, by omega⟩).id,
        is_correct :=
          ((optionsOfQuestion st q.id).get
            ⟨(optionIndex c).toNat, by omega⟩).is_correct } := by
  simp only [gradeOne]
  rw [dif_pos hin]

theorem add_optionIndex_toNat (L : Nat) (h : 0 ≤ optionIndex L) :
    65 + (optionIndex L).toNat = pyUpper L := by
  unfold optionIndex at *
  omega

/-- C1: round-trip of the letter encoding — under the primary-key and
foreign-key invariants of the store (distinct nonzero option ids, answer
rows referencing existing attempts), if the submission records letter L
at position i and the computed index `ord(upper(L)) - ord('A')` is in
range for that question's option count, then the transcript returned by
`get_quiz_attempt_details` for the new attempt reconstructs
`selected_option_letter = upper(L)` for that question, both sides
ordering the options by ascending option id. -/
theorem submit_detail_letter_roundtrip (st : DBState) (quiz_id user_id : Nat)
    (t : ℚ) (sel : List Nat) (now : Nat) (i : Nat) (q : Question) (L : Nat)
    (hq : (findQuiz st quiz_id).isSome = true)
    (hlen : (questionsOfQuiz st quiz_id).length = sel.length)
    (h0 : 0 < sel.length)
    (hPK : st.options.Pairwise (fun a b => a.id ≠ b.id))
    (hpos : ∀ o ∈ st.options, o.id ≠ 0)
    (hFK : ∀ a ∈ st.answers, ∃ b ∈ st.attempts, b.id = a.attempt_id)
    (hqi : (questionsOfQuiz st quiz_id)[i]? = some q)
    (hLi : sel[i]? = some L)
    (hin : 0 ≤ optionIndex L ∧
           optionIndex L < ((optionsOfQuestion st q.id).length : Int)) :
    submitAttempt st quiz_id user_id t sel now =
      .ok (postSubmitState st quiz_id user_id t sel now,
           submitResultOf st quiz_id t sel) ∧
    ∃ d, getQuizAttemptDetails (postSubmitState st quiz_id user_id t sel now)
        (nextAttemptId st) = .ok d ∧
      ∃ e, d.answers[i]? = some e ∧
        e.question_id = q.id ∧
        e.selected_option_letter = some (pyUpper L) := by
  refine ⟨submit_ok_form st quiz_id user_id t sel now hq hlen h0, ?_⟩
  have hall : ∀ a ∈ newAnswersOf st quiz_id sel, ∃ d, answerEntry st a = .ok d := by
    intro a ha
    unfold newAnswersOf gradedRows at ha
    obtain ⟨p, hp, rfl⟩ := List.mem_map.mp ha
    have hqst : p.1 ∈ st.questions :=
      mem_questionsOfQuiz st quiz_id p.1 (List.of_mem_zip hp).1
    obtain ⟨q2, hq2⟩ :=
      Option.isSome_iff_exists.mp (findQuestion_isSome_of_mem st p.1 hqst)
    have hq2b : findQuestion st
        (gradeOne st (nextAttemptId st) p.1 p.2).question_id = some q2 := by
      rw [gradeOne_question_id]; exact hq2
    obtain ⟨d, hd, -, -⟩ := answerEntry_fields st _ q2 hq2b
    exact ⟨d, hd⟩
  obtain ⟨ds, hds, hdslen, hpt⟩ :=
    buildAnswersData_pointwise st (newAnswersOf st quiz_id sel) hall
  have hdetail : ∃ d, getQuizAttemptDetails
      (postSubmitState st quiz_id user_id t sel now) (nextAttemptId st) = .ok d ∧
      d.answers = ds := by
    unfold getQuizAttemptDetails
    rw [findAttempt_post st quiz_id user_id t sel now]
    simp only
    rw [answersOfAttempt_post st quiz_id user_id t sel now hFK,
      buildAnswersData_post st quiz_id user_id t sel now, hds]
    exact ⟨_, rfl, rfl⟩
  obtain ⟨d, hd, hdans⟩ := hdetail
  refine ⟨d, hd, ?_⟩
  have hrow : (newAnswersOf st quiz_id sel)[i]? =
      some (gradeOne st (nextAttemptId st) q L) := by
    unfold newAnswersOf gradedRows
    rw [List.getElem?_map,
      List.getElem?_zip_eq_some.mpr (⟨hqi, hLi⟩ :
        (questionsOfQuiz st quiz_id)[i]? = some (q, L).1 ∧ sel[i]? = some (q, L).2)]
    simp only [Option.map_some']
  obtain ⟨e, he, hee⟩ := hpt i _ hrow
  refine ⟨e, by rw [hdans]; exact he, ?_⟩
  have hlt : (optionIndex L).toNat < (optionsOfQuestion st q.id).length := by omega
  have hqmem : q ∈ st.questions :=
    mem_questionsOfQuiz st quiz_id q (mem_of_getElem?_some hqi)
  obtain ⟨q2, hq2⟩ :=
    Option.isSome_iff_exists.mp (findQuestion_isSome_of_mem st q hqmem)
  have hq2id : q2.id = q.id := findQuestion_id st q.id q2 hq2
  have hq2b : findQuestion st
      (gradeOne st (nextAttemptId st) q L).question_id = some q2 := by
    rw [gradeOne_question_id]; exact hq2
  obtain ⟨d2, hd2, hd2q, hd2letter⟩ := answerEntry_fields st _ q2 hq2b
  have hed : e = d2 := Except.ok.inj (hee.symm.trans hd2)
  subst hed
  have hrowdef := gradeOne_in_range st (nextAttemptId st) q L hin
  rw [hrowdef] at hd2letter
  simp only at hd2letter
  have hsomem : (optionsOfQuestion st q.id).get ⟨(optionIndex L).toNat, hlt⟩ ∈
      st.options :=
    mem_optionsOfQuestion st q.id _ (List.get_mem _ _ _)
  have hsoid : ((optionsOfQuestion st q.id).get
      ⟨(optionIndex L).toNat, hlt⟩).id ≠ 0 := hpos _ hsomem
  rw [if_pos hsoid] at hd2letter
  have hfi : firstIdx (fun o => o.id ==
      ((optionsOfQuestion st q.id).get ⟨(optionIndex L).toNat, hlt⟩).id)
      (optionsOfQuestion st q.id) = some (optionIndex L).toNat := by
    apply firstIdx_beq_id (optionsOfQuestion st q.id)
      (optionsOfQuestion_pairwise st q.id hPK)
    exact List.getElem?_eq_getElem hlt
  rw [hfi] at hd2letter
  simp only [Option.map_some'] at hd2letter
  refine ⟨by rw [hd2q, hq2id], ?_⟩
  rw [hd2letter, add_optionIndex_toNat L hin.1]

/-- C1 witness: on the scenario store, submitting lowercase "b" for the
first question (four options, ids 1-4) and then reading the transcript
back reconstructs the uppercase letter "B" (code point 66). -/
theorem submit_detail_letter_roundtrip_witness :
    submitAttempt egState 1 1 30 [98, 97] 0 =
      .ok (postSubmitState egState 1 1 30 [98, 97] 0,
           submitResultOf egState 1 30 [98, 97]) ∧
    ∃ d, getQuizAttemptDetails (postSubmitState egState 1 1 30 [98, 97] 0)
        (nextAttemptId egState) = .ok d ∧
      ∃ e, d.answers[0]? = some e ∧
        e.question_id = 1 ∧
        e.selected_option_letter = some (pyUpper 98) :=
  submit_detail_letter_roundtrip egState 1 1 30 [98, 97] 0 0
    { id := 1, quiz_id := 1, question_text := "q1" } 98
    (by decide) (by decide) (by decide) (by decide) (by decide) (by decide)
    (by decide) (by decide) (by decide)

end Kwizify
